import Mathlib

/-!
Verification of the zeroclaw Dink integration layer.

Shallow embedding of the Rust sources under `src/dink/`:
* `channel.rs`      — `DinkChannel` correlator (pending map of oneshot senders)
* `edge_service.rs` — `ZeroClawEdgeService` dispatcher (unary / streaming / shutdown / recall)
* `watchdog.rs`     — `DinkLiveness` and `spawn_watchdog`
* `service_tool.rs` — `to_snake_case`, tool-name derivation, output truncation

Machine integers (`i32`, `u64`) are modelled as `Int`/`Nat`; the values
involved never approach overflow in any claim. Async suspension is modelled
by explicit state passing plus a discrete time parameter where a claim
mentions timing.
-/

-- ===========================================================================
-- Shared wire types (src/dink/generated/types.rs and edge_service.rs)
-- ===========================================================================

/-- Record of a single tool invocation (generated `ToolCallRecord`). -/
structure ToolCallRecord where
  name : String
  args : String
  result : String
  success : Bool
deriving DecidableEq, Repr

/-- The agent loop's response to a forwarded request (`AgentResponse` in
edge_service.rs): response text, tool calls, iteration count. -/
structure AgentResponse where
  response : String
  tool_calls : List ToolCallRecord
  iterations : Int
deriving DecidableEq, Repr

/-- Payload of `anyhow::Result<AgentResponse>` carried by the per-request
oneshot channel: either a response or an error rendered as text. -/
inductive AgentResult where
  | ok (r : AgentResponse)
  | err (e : String)
deriving DecidableEq, Repr

/-- The dispatch loop's outgoing message (`SendMessage` from channels/traits):
`content` is the reply text, `recipient` carries the correlation message id. -/
structure SendMessage where
  content : String
  recipient : String
deriving DecidableEq, Repr

-- ===========================================================================
-- Correlator: DinkChannel (src/dink/channel.rs)
-- ===========================================================================

/-- State of one `tokio::sync::oneshot` completion slot. `receiverAlive` is
whether the receiving half still exists (the caller has not timed out and
dropped it); `value` is the delivered result, if any. -/
structure Slot where
  receiverAlive : Bool
  value : Option AgentResult
deriving DecidableEq, Repr

/-- Model of `oneshot::Sender::send`: delivery succeeds exactly when the
receiver is still alive; otherwise the value is lost. The `Bool` mirrors
the `Result` that `DinkChannel::send` discards with `let _ = tx.send(..)`. -/
def oneshotSend (s : Slot) (v : AgentResult) : Slot × Bool :=
  if s.receiverAlive then ({ s with value := some v }, true) else (s, false)

/-- State of the `DinkChannel` correlator: the `pending` map from message id
to slot index, plus the store of all oneshot slots (indexed by `Nat`). -/
structure ChanState where
  pending : List (String × Nat)
  slots : List Slot
deriving DecidableEq, Repr

/-- Lookup in the pending map (`HashMap::get` semantics on an assoc list). -/
def pendingLookup : List (String × Nat) → String → Option Nat
  | [], _ => none
  | (k, v) :: rest, id => if k = id then some v else pendingLookup rest id

/-- Removal from the pending map (`HashMap::remove`). -/
def pendingRemove : List (String × Nat) → String → List (String × Nat)
  | [], _ => []
  | (k, v) :: rest, id =>
    if k = id then pendingRemove rest id else (k, v) :: pendingRemove rest id

/-- The listener's registration step (channel.rs lines 77-80): stash the
request's `response_tx` under the freshly generated message id —
`map.insert(msg_id.clone(), agent_req.response_tx)`. A fresh live slot is
appended to the slot store and its index recorded; `HashMap::insert`
replaces any previous entry for the same key. -/
def registerPending (s : ChanState) (msg_id : String) : ChanState :=
  { pending := (msg_id, s.slots.length) :: pendingRemove s.pending msg_id,
    slots := s.slots ++ [{ receiverAlive := true, value := none }] }

/-- Message-id generation in `DinkChannel::listen`: `format!("dink-{msg_counter}")`
after `msg_counter += 1`. -/
def mkMsgId (counter : Nat) : String := "dink-" ++ toString counter

/-- One iteration of the `DinkChannel::listen` loop, restricted to its effect
on the correlator state: bump the counter, build the id, register the slot.
Returns the new state and the id under which the request was registered. -/
def listenStep (s : ChanState) (counter : Nat) : ChanState × String :=
  let msg_id := mkMsgId (counter + 1)
  (registerPending s msg_id, msg_id)

/-- `DinkChannel::send` (channel.rs lines 117-147): take the message id from
`message.recipient`, remove its pending entry; when a sender is found, build
`AgentResponse { response: message.content, tool_calls: vec![], iterations: 0 }`
and deliver it on the oneshot, ignoring delivery failure; when no entry is
found, log and drop the response. Both paths return `Ok(())`. -/
def channelSend (s : ChanState) (message : SendMessage) : ChanState × Except String Unit :=
  let msg_id := message.recipient
  match pendingLookup s.pending msg_id with
  | some idx =>
    let response : AgentResponse :=
      { response := message.content, tool_calls := [], iterations := 0 }
    let slots' :=
      match s.slots[idx]? with
      | some sl => s.slots.set idx (oneshotSend sl (.ok response)).1
      | none => s.slots
    ({ pending := pendingRemove s.pending msg_id, slots := slots' }, .ok ())
  | none =>
    ({ s with pending := pendingRemove s.pending msg_id }, .ok ())

/-- Names of the functions implemented on `DinkChannel` in channel.rs:
the constructor `new` plus the four `Channel` trait methods. The file
declares no other operation on the correlator. -/
def dinkChannelOps : List String := ["new", "name", "listen", "send", "health_check"]

-- ===========================================================================
-- Dispatcher: ZeroClawEdgeService (src/dink/edge_service.rs)
-- ===========================================================================

/-- The `DinkError::Service` variant as produced by this service. -/
structure DinkError where
  service : String
  method : String
  code : String
  message : String
deriving DecidableEq, Repr

/-- Helper `dink_err` (edge_service.rs lines 55-62). -/
def dink_err (msg : String) : DinkError :=
  { service := "ZeroClawService", method := "", code := "HANDLER_ERROR", message := msg }

/-- Behaviour of the Processor side of one oneshot completion slot, as seen
by the awaiting caller: the sender resolves at time `t` (measured from the
start of the await) with a result, or is dropped unresolved at time `t`, or
nothing ever happens. -/
inductive OneshotFate where
  | resolve (t : Nat) (r : AgentResult)
  | senderDropped (t : Nat)
  | never
deriving DecidableEq, Repr

/-- Model of `tokio::time::timeout(ceiling, response_rx).await` followed by
the error-mapping layers in `send_to_agent` / `stream_message`: ceiling
elapsed → `dink_err timeoutMsg`; sender dropped → `dink_err "agent response
channel dropped"`; an inner `Err(e)` → `dink_err ("agent error: " ++ e)`.
Returns the call's result together with the time the caller spent waiting. -/
def awaitOneshot (ceiling : Nat) (timeoutMsg : String) (fate : OneshotFate) :
    Except DinkError AgentResponse × Nat :=
  match fate with
  | .resolve t r =>
    if t ≤ ceiling then
      match r with
      | .ok resp => (.ok resp, t)
      | .err e => (.error (dink_err ("agent error: " ++ e)), t)
    else (.error (dink_err timeoutMsg), ceiling)
  | .senderDropped t =>
    if t ≤ ceiling then (.error (dink_err "agent response channel dropped"), t)
    else (.error (dink_err timeoutMsg), ceiling)
  | .never => (.error (dink_err timeoutMsg), ceiling)

/-- Whether the completion slot produces anything at all (a resolution or a
closed channel) within `ceiling` time units of the start of the await. -/
def resolvesWithin (fate : OneshotFate) (ceiling : Nat) : Bool :=
  match fate with
  | .resolve t _ => decide (t ≤ ceiling)
  | .senderDropped t => decide (t ≤ ceiling)
  | .never => false

/-- The `AgentRequest` tuple handed to the Processor over the work queue
(minus the oneshot sender, which the slot model carries separately).
`hasStreamSink` mirrors `stream_delta_tx.is_some()`. -/
structure AgentRequestMsg where
  message : String
  channel : String
  metadata : List (String × String)
  hasStreamSink : Bool
deriving DecidableEq, Repr

/-- Everything the edge service sends toward the Processor during one call.
The `cancel` constructor exists so that the absence of backward cancellation
is statable; no code path in edge_service.rs constructs it. -/
inductive ProcessorEffect where
  | enqueue (req : AgentRequestMsg)
  | cancel (id : String)
deriving DecidableEq, Repr

/-- Mutable state of `ZeroClawEdgeService`: whether `agent_sender` holds
`Some` sender, the status text, and the two atomic counters. (`started_at`,
the memory backend and `config_tx` are orthogonal to these claims.) -/
structure EdgeState where
  agent_sender : Bool
  statusText : String
  messages_handled : Int
  tool_calls_total : Int
deriving DecidableEq, Repr

/-- Result bundle of one unary call: final service state, caller-visible
result, effects sent toward the Processor, and caller wait time (seconds). -/
structure UnaryOutcome where
  state : EdgeState
  result : Except DinkError AgentResponse
  effects : List ProcessorEffect
  waited : Nat
deriving Repr

/-- The unary ceiling: `Duration::from_secs(30)` in `send_to_agent`. -/
def TIMEOUT_SECS : Nat := 30

/-- `ZeroClawEdgeService::send_to_agent` (edge_service.rs lines 158-195):
fail fast when `agent_sender` is `None`; fail when the work queue is closed
(`queueOpen = false` models `sender.send(..)` returning `Err`); otherwise
enqueue the request with a fresh completion slot and await it under the
30-second ceiling; on success bump `messages_handled` by one and
`tool_calls_total` by the number of tool calls in the response. -/
def send_to_agent (s : EdgeState) (message channel : String)
    (metadata : List (String × String)) (queueOpen : Bool) (fate : OneshotFate) :
    UnaryOutcome :=
  if s.agent_sender = false then
    { state := s,
      result := .error (dink_err "agent not started — no sender channel available"),
      effects := [], waited := 0 }
  else if queueOpen = false then
    { state := s, result := .error (dink_err "agent channel closed"),
      effects := [], waited := 0 }
  else
    let req : AgentRequestMsg :=
      { message := message, channel := channel, metadata := metadata, hasStreamSink := false }
    let out := awaitOneshot TIMEOUT_SECS "agent response timed out after 30s" fate
    match out.1 with
    | .ok resp =>
      { state := { s with
          messages_handled := s.messages_handled + 1,
          tool_calls_total := s.tool_calls_total + resp.tool_calls.length },
        result := .ok resp, effects := [.enqueue req], waited := out.2 }
    | .error e =>
      { state := s, result := .error e, effects := [.enqueue req], waited := out.2 }

/-- The wire `ShutdownResponse` as built by `ZeroClawEdgeService::shutdown`. -/
structure ShutdownResponse where
  shutdown : Bool
  messages_processed : Int
  uptime_ms : Int
deriving DecidableEq, Repr

/-- `ZeroClawEdgeService::shutdown` (edge_service.rs lines 367-386): write
"stopping" into the status snapshot, replace `agent_sender` with `None`,
and answer with `shutdown: true` plus the current counters. `uptime_ms` is
wall-clock elapsed time, passed in as a parameter. -/
def shutdown (s : EdgeState) (uptime_ms : Int) : EdgeState × ShutdownResponse :=
  let s' := { s with statusText := "stopping", agent_sender := false }
  (s', { shutdown := true, messages_processed := s.messages_handled, uptime_ms := uptime_ms })

-- ===========================================================================
-- Streaming path of the dispatcher (edge_service.rs lines 214-269)
-- ===========================================================================

/-- The streaming terminal ceiling: `Duration::from_secs(120)`. -/
def STREAM_TIMEOUT_SECS : Nat := 120

/-- The `while let Some(event_value) = delta_rx.recv().await` loop of
`stream_message`: for each chunk read from the relay, in order, serialize it
(`serde_json::to_vec`, failure → `dink_err ("serialization error: " ++ e)`)
and pass the bytes to the caller's emit sink (failure propagates). Returns
the bytes emitted in order, paired with the first error if one occurred. -/
def streamForward {α : Type} (ser : α → Except String (List Nat))
    (emit : List Nat → Except DinkError Unit) :
    List α → List (List Nat) × Option DinkError
  | [] => ([], none)
  | ev :: rest =>
    match ser ev with
    | .error e => ([], some (dink_err ("serialization error: " ++ e)))
    | .ok bytes =>
      match emit bytes with
      | .error err => ([], some err)
      | .ok _ =>
        let out := streamForward ser emit rest
        (bytes :: out.1, out.2)

/-- Result bundle of one streaming call: the bytes handed to the emit sink in
order, the final result, and the time spent awaiting the terminal response
after the relay closed. -/
structure StreamOutcome where
  emitted : List (List Nat)
  result : Except DinkError Unit
  waitedAfterClose : Nat
deriving Repr

/-- `ZeroClawEdgeService::stream_message` (edge_service.rs lines 214-269):
fail fast without a sender (`"agent not started"`); enqueue the request with
a relay sink attached; forward every relay chunk to `emit` until the relay
closes; only then await the terminal oneshot under the 120-second ceiling
(timeout message `"stream response timed out"`); on success bump
`messages_handled` and return `Ok(())` (the trailing 50 ms settling sleep
does not change any observable modelled here). -/
def stream_message {α : Type} (s : EdgeState) (ser : α → Except String (List Nat))
    (emit : List Nat → Except DinkError Unit) (queueOpen : Bool)
    (deltas : List α) (fate : OneshotFate) : EdgeState × StreamOutcome :=
  if s.agent_sender = false then
    (s, { emitted := [], result := .error (dink_err "agent not started"),
          waitedAfterClose := 0 })
  else if queueOpen = false then
    (s, { emitted := [], result := .error (dink_err "agent channel closed"),
          waitedAfterClose := 0 })
  else
    let fwd := streamForward ser emit deltas
    match fwd.2 with
    | some e => (s, { emitted := fwd.1, result := .error e, waitedAfterClose := 0 })
    | none =>
      let out := awaitOneshot STREAM_TIMEOUT_SECS "stream response timed out" fate
      match out.1 with
      | .ok _ =>
        ({ s with messages_handled := s.messages_handled + 1 },
         { emitted := fwd.1, result := .ok (), waitedAfterClose := out.2 })
      | .error e =>
        (s, { emitted := fwd.1, result := .error e, waitedAfterClose := out.2 })

-- ===========================================================================
-- RecallMemory (edge_service.rs lines 295-327)
-- ===========================================================================

/-- The wire `RecallMemoryRequest`: query text and an `i32` limit. -/
structure RecallMemoryRequest where
  query : String
  limit : Int
deriving DecidableEq, Repr

/-- The wire `RecallMemoryResponse`. Entries are carried abstractly as `μ`:
the per-entry conversion to the wire `MemoryEntry` is a field-wise
relabeling that preserves the number of entries, and no claim concerns the
individual fields. -/
structure RecallMemoryResponse (μ : Type) where
  entries : List μ
  total_matches : Int
deriving Repr

/-- The limit computation inside `recall_memory`:
`if req.limit > 0 { req.limit as usize } else { 10 }`. -/
def effectiveLimit (limit : Int) : Nat :=
  if limit > 0 then limit.toNat else 10

/-- `ZeroClawEdgeService::recall_memory` (edge_service.rs lines 295-327):
with a backend attached, call `mem.recall(query, limit, None)` where a
failing recall collapses to the empty list (`unwrap_or_default`); with no
backend, use the empty list. Always answers `Ok` with the entries and
`total_matches = entries.len()`. The backend is modelled as a function from
query and limit to `Option` (None = recall error). -/
def recall_memory {μ : Type} (memory : Option (String → Nat → Option (List μ)))
    (req : RecallMemoryRequest) : Except DinkError (RecallMemoryResponse μ) :=
  let entries : List μ :=
    match memory with
    | some mem => (mem req.query (effectiveLimit req.limit)).getD []
    | none => []
  .ok { entries := entries, total_matches := entries.length }

-- ===========================================================================
-- Liveness & watchdog (src/dink/watchdog.rs)
-- ===========================================================================

/-- `DinkLiveness::wait_until_dead` against a liveness timeline
`alive : Nat → Bool`: starting at time `now`, block until the first instant
at which the flag is dead. `fuel` bounds the search so the scan is total;
`none` means the flag stayed alive throughout the fuel. -/
def findDead (alive : Nat → Bool) : Nat → Nat → Option Nat
  | 0, _ => none
  | fuel + 1, t => if alive t then findDead alive fuel (t + 1) else some t

/-- The `spawn_watchdog` loop (watchdog.rs lines 89-117) against a liveness
timeline: wait until dead is observed at some time `t`; sleep the grace
period `G`, ignoring interim flag churn; re-check once at `t + G`: if still
dead, perform the terminal action (process exit, or returning `true` when
`exit_on_timeout` is false) — modelled as `some (t + G)`, the trigger time;
if alive, log recovery and restart the wait from `t + G`. `fuel` bounds the
number of loop iterations; `none` means the watchdog never triggered. -/
def watchdogRun (alive : Nat → Bool) (G : Nat) : Nat → Nat → Option Nat
  | 0, _ => none
  | fuel + 1, now =>
    match findDead alive (fuel + 1) now with
    | none => none
    | some t =>
      if alive (t + G) then watchdogRun alive G fuel (t + G) else some (t + G)

-- ===========================================================================
-- Capability proxy (src/dink/service_tool.rs)
-- ===========================================================================

/-- Maximum response size included in tool output: `50 * 1024` bytes. -/
def MAX_OUTPUT_BYTES : Nat := 50 * 1024

/-- One step of `to_snake_case`'s character loop (service_tool.rs lines
18-27): an uppercase character is lowercased and, except at index 0,
preceded by an underscore; other characters pass through. Rust's
`char::is_uppercase` and Lean's `Char.isUpper` agree on the ASCII names
this table contains; `to_ascii_lowercase` matches `Char.toLower`. -/
def snakePush (i : Nat) (ch : Char) : List Char :=
  if ch.isUpper then
    (if 0 < i then ['_', ch.toLower] else [ch.toLower])
  else [ch]

/-- `to_snake_case` (service_tool.rs lines 16-29): fold `snakePush` over the
enumerated characters of the input. -/
def to_snake_case (s : String) : String :=
  String.mk (s.data.enum.foldl (fun acc p => acc ++ snakePush p.1 p.2) [])

/-- The `service_name.strip_suffix("Service").unwrap_or(&service_name)` step
of `DinkServiceTool::new`: drop a trailing `"Service"` when present.
Implemented on the character list so it evaluates inside the kernel. -/
def stripServiceSuffix (s : String) : String :=
  if 7 ≤ s.data.length ∧ s.data.drop (s.data.length - 7) = "Service".data then
    String.mk (s.data.take (s.data.length - 7))
  else s

/-- Tool-name derivation in `DinkServiceTool::new` (service_tool.rs lines
58-63): `format!("dink_{}_{}", to_snake_case(svc), to_snake_case(&method))`
with `svc` the suffix-stripped service name. -/
def derive_tool_name (service_name method_name : String) : String :=
  "dink_" ++ to_snake_case (stripServiceSuffix service_name) ++ "_"
    ++ to_snake_case method_name

/-- UTF-8 byte length of a character sequence (`String::len` in Rust). -/
def utf8Len (cs : List Char) : Nat := (cs.map Char.utf8Size).sum

/-- Slicing at `floor_char_boundary(budget)`: keep the longest prefix of
whole characters whose total UTF-8 size fits in `budget`. -/
def takeBytes : Nat → List Char → List Char
  | _, [] => []
  | budget, c :: cs =>
    if c.utf8Size ≤ budget then c :: takeBytes (budget - c.utf8Size) cs else []

/-- The marker appended to truncated output. -/
def TRUNCATION_MARKER : List Char := "\n... [truncated]".data

/-- The truncation step of `DinkServiceTool::execute` (service_tool.rs lines
124-132): output longer than `MAX_OUTPUT_BYTES` bytes is cut at a valid
character boundary at or before the ceiling and the marker is appended;
anything at or below the ceiling passes through unchanged. -/
def truncate_output (output : List Char) : List Char :=
  if utf8Len output > MAX_OUTPUT_BYTES then
    takeBytes MAX_OUTPUT_BYTES output ++ TRUNCATION_MARKER
  else output

/-- The `ToolResult` wrapper (tools/traits), output carried as characters. -/
structure ToolResult where
  success : Bool
  output : List Char
  error : Option String
deriving Repr

/-- The tail of `DinkServiceTool::execute` after a successful peer call and
reply decode (service_tool.rs lines 117-138): truncate the decoded output
and wrap it as a successful `ToolResult`. -/
def execute_decoded (output : List Char) : ToolResult :=
  { success := true, output := truncate_output output, error := none }

-- ===========================================================================
-- Concrete instances used by witnesses
-- ===========================================================================

/-- Liveness timeline that is dead only at instant 0 and alive from 1 on. -/
def aliveAfterOne (u : Nat) : Bool := u != 0

/-- Liveness timeline that stays dead for the whole run. -/
def alwaysDead (_ : Nat) : Bool := false

/-- Chunk serializer used by the streaming witness. -/
def serW (n : Nat) : Except String (List Nat) := .ok [n]

/-- Emit sink used by the streaming witness. -/
def emitW (_ : List Nat) : Except DinkError Unit := .ok ()

/-- Memory backend used by the recall witness. -/
def memW (_ : String) (_ : Nat) : Option (List Nat) := none

-- ===========================================================================
-- Pending-map and list lemmas
-- ===========================================================================

theorem pendingLookup_pendingRemove (l : List (String × Nat)) (id : String) :
    pendingLookup (pendingRemove l id) id = none := by
  induction l with
  | nil => rfl
  | cons p rest ih =>
    by_cases h : p.1 = id
    · simpa [pendingRemove, h] using ih
    · simpa [pendingRemove, pendingLookup, h] using ih

theorem pendingRemove_of_lookup_none (l : List (String × Nat)) (id : String)
    (h : pendingLookup l id = none) : pendingRemove l id = l := by
  induction l with
  | nil => rfl
  | cons p rest ih =>
    by_cases hk : p.1 = id
    · simp [pendingLookup, hk] at h
    · simp only [pendingLookup, hk, if_false, if_neg hk] at h
      simp [pendingRemove, hk, ih h]

theorem pendingRemove_idem (l : List (String × Nat)) (id : String) :
    pendingRemove (pendingRemove l id) id = pendingRemove l id :=
  pendingRemove_of_lookup_none _ _ (pendingLookup_pendingRemove l id)

theorem list_set_append_length (l : List Slot) (a b : Slot) :
    (l ++ [a]).set l.length b = l ++ [b] := by
  induction l with
  | nil => rfl
  | cons x xs ih => simp [List.set, ih]

theorem list_getElem?_append_length (l : List Slot) (a : Slot) :
    (l ++ [a])[l.length]? = some a := by
  induction l with
  | nil => rfl
  | cons x xs ih => simp [ih]

-- ===========================================================================
-- C1 / C6: correlator resolve semantics
-- ===========================================================================

/-- C1. A request id registered by the listener and then resolved exactly once
via `DinkChannel::send` delivers to the waiting caller exactly the response
built from that resolve (`AgentResponse { response: content, tool_calls: [],
iterations: 0 }`); the first resolve removes the pending entry, so a second
resolve for the same id finds no slot and delivers nothing (every slot is
left unchanged by the second send). -/
theorem dink_resolve_exactly_once (s : ChanState) (counter : Nat) (c c2 : String) :
    ((channelSend (listenStep s counter).1
        { content := c, recipient := (listenStep s counter).2 }).1).slots[s.slots.length]?
        = some { receiverAlive := true,
                 value := some (.ok { response := c, tool_calls := [], iterations := 0 }) }
    ∧ pendingLookup
        ((channelSend (listenStep s counter).1
          { content := c, recipient := (listenStep s counter).2 }).1).pending
        (listenStep s counter).2 = none
    ∧ ((channelSend
          (channelSend (listenStep s counter).1
            { content := c, recipient := (listenStep s counter).2 }).1
          { content := c2, recipient := (listenStep s counter).2 }).1).slots
        = ((channelSend (listenStep s counter).1
            { content := c, recipient := (listenStep s counter).2 }).1).slots := by
  set id := (listenStep s counter).2 with hid
  have hstep : (listenStep s counter).1 = registerPending s id := rfl
  have hsend1 : (channelSend (registerPending s id) { content := c, recipient := id }).1
      = { pending := pendingRemove s.pending id,
          slots := s.slots ++
            [{ receiverAlive := true,
               value := some (.ok { response := c, tool_calls := [], iterations := 0 }) }] } := by
    simp [channelSend, registerPending, pendingLookup, pendingRemove, oneshotSend,
      pendingRemove_idem, list_getElem?_append_length, list_set_append_length]
  refine ⟨?_, ?_, ?_⟩
  · rw [hstep, hsend1]
    exact list_getElem?_append_length s.slots _
  · rw [hstep, hsend1]
    exact pendingLookup_pendingRemove s.pending id
  · rw [hstep, hsend1]
    simp [channelSend, pendingLookup_pendingRemove]

/-- C6. A resolve (`DinkChannel::send`) for a message id with no pending
entry — never registered, or already resolved — is a no-op returning
success: the state is unchanged and the result is `Ok(())`. -/
theorem dink_resolve_missing_id_noop (s : ChanState) (m : SendMessage)
    (h : pendingLookup s.pending m.recipient = none) :
    channelSend s m = (s, .ok ()) := by
  simp [channelSend, h, pendingRemove_of_lookup_none _ _ h]

/-- Witness for C6: resolving id "dink-2" against a state whose only pending
entry is "dink-1" leaves the state unchanged and returns `Ok(())`. -/
theorem dink_resolve_missing_id_noop_witness :
    pendingLookup ([("dink-1", 0)] : List (String × Nat)) "dink-2" = none
    ∧ channelSend { pending := [("dink-1", 0)], slots := [{ receiverAlive := true, value := none }] }
        { content := "late", recipient := "dink-2" }
      = ({ pending := [("dink-1", 0)], slots := [{ receiverAlive := true, value := none }] },
         .ok ()) :=
  ⟨by decide,
   dink_resolve_missing_id_noop
     { pending := [("dink-1", 0)], slots := [{ receiverAlive := true, value := none }] }
     { content := "late", recipient := "dink-2" } (by decide)⟩

-- ===========================================================================
-- C2: unary timeout semantics
-- ===========================================================================

theorem list_getElem?_set_of_mem (l : List Slot) (i : Nat) (a b : Slot)
    (h : l[i]? = some a) : (l.set i b)[i]? = some b := by
  have hlt : i < l.length := by
    by_contra hge
    rw [List.getElem?_eq_none (Nat.le_of_not_lt hge)] at h
    exact Option.noConfusion h
  exact List.getElem?_set_eq_of_lt b hlt

/-- C2. With a live Processor link and an open work queue, a unary call whose
completion slot does not resolve within the 30-unit ceiling returns the
Timeout failure to the caller after waiting exactly the ceiling; the only
effect sent toward the Processor is the single enqueue of the request — no
cancellation is ever among the effects — and a late resolve of the abandoned
slot through `DinkChannel::send` still returns `Ok(())` while delivering
nothing (the late result is silently dropped). -/
theorem unary_timeout_no_cancellation (s : EdgeState) (message channel : String)
    (metadata : List (String × String)) (fate : OneshotFate)
    (hs : s.agent_sender = true) (hf : resolvesWithin fate TIMEOUT_SECS = false) :
    (send_to_agent s message channel metadata true fate).result
        = .error (dink_err "agent response timed out after 30s")
    ∧ (send_to_agent s message channel metadata true fate).waited = TIMEOUT_SECS
    ∧ (send_to_agent s message channel metadata true fate).effects
        = [.enqueue { message := message, channel := channel,
                      metadata := metadata, hasStreamSink := false }]
    ∧ (∀ id, ProcessorEffect.cancel id ∉ (send_to_agent s message channel metadata true fate).effects)
    ∧ (∀ (cs : ChanState) (m : SendMessage) (idx : Nat),
        pendingLookup cs.pending m.recipient = some idx →
        cs.slots[idx]? = some { receiverAlive := false, value := none } →
        (channelSend cs m).2 = .ok ()
        ∧ ((channelSend cs m).1).slots[idx]? = some { receiverAlive := false, value := none }) := by
  have hawait : awaitOneshot TIMEOUT_SECS "agent response timed out after 30s" fate
      = (.error (dink_err "agent response timed out after 30s"), TIMEOUT_SECS) := by
    cases fate with
    | resolve t r =>
      have ht : ¬ t ≤ TIMEOUT_SECS := by simpa [resolvesWithin] using hf
      simp [awaitOneshot, ht]
    | senderDropped t =>
      have ht : ¬ t ≤ TIMEOUT_SECS := by simpa [resolvesWithin] using hf
      simp [awaitOneshot, ht]
    | never => rfl
  refine ⟨?_, ?_, ?_, ?_, ?_⟩
  · simp [send_to_agent, hs, hawait]
  · simp [send_to_agent, hs, hawait]
  · simp [send_to_agent, hs, hawait]
  · intro id
    simp [send_to_agent, hs, hawait]
  · intro cs m idx hl hg
    refine ⟨by simp [channelSend, hl], ?_⟩
    simp only [channelSend, hl, hg, oneshotSend]
    simpa using list_getElem?_set_of_mem cs.slots idx _ _ hg

/-- Witness for C2: a never-resolving slot against a running service times
out after exactly 30 units with only the enqueue effect. -/
theorem unary_timeout_no_cancellation_witness :
    ({ agent_sender := true, statusText := "running",
       messages_handled := 0, tool_calls_total := 0 } : EdgeState).agent_sender = true
    ∧ resolvesWithin .never TIMEOUT_SECS = false
    ∧ (send_to_agent
        { agent_sender := true, statusText := "running",
          messages_handled := 0, tool_calls_total := 0 }
        "hello" "dink" [] true .never).result
        = .error (dink_err "agent response timed out after 30s") :=
  ⟨rfl, rfl,
   (unary_timeout_no_cancellation
     { agent_sender := true, statusText := "running",
       messages_handled := 0, tool_calls_total := 0 }
     "hello" "dink" [] .never rfl rfl).1⟩

-- ===========================================================================
-- C5: shutdown severs the sender and later calls fail fast
-- ===========================================================================

/-- C5. After `shutdown` completes, the status text is "stopping" and the
sender link is severed; every subsequent unary call returns the failed
result "agent not started — no sender channel available" immediately: the
state is untouched, nothing is enqueued, and no timeout wait is incurred
(waited = 0). -/
theorem shutdown_then_fail_fast (s : EdgeState) (uptime : Int)
    (message channel : String) (metadata : List (String × String))
    (queueOpen : Bool) (fate : OneshotFate) :
    ((shutdown s uptime).1).statusText = "stopping"
    ∧ ((shutdown s uptime).1).agent_sender = false
    ∧ send_to_agent (shutdown s uptime).1 message channel metadata queueOpen fate
      = { state := (shutdown s uptime).1,
          result := .error (dink_err "agent not started — no sender channel available"),
          effects := [], waited := 0 } := by
  refine ⟨rfl, rfl, ?_⟩
  simp [send_to_agent, shutdown]

-- ===========================================================================
-- C7: no cancel_all operation; teardown wakes callers through drop
-- ===========================================================================

/-- C7 counterexample: the correlator (`DinkChannel`, channel.rs) declares no
`cancel_all` operation — its functions are exactly the constructor plus the
`Channel` trait methods. -/
theorem dink_channel_no_cancel_all : "cancel_all" ∉ dinkChannelOps := by
  decide

/-- C7 amended: the correlator has no explicit `cancel_all`; blocked callers
are woken by drop semantics instead. When a pending slot's sender is dropped
at time `t` within the caller's ceiling, the caller's await returns the
closed-channel failure ("agent response channel dropped") at time `t` rather
than blocking forever; and `cancel_all` is not among the correlator's
operations. -/
theorem dink_teardown_wakes_callers (ceiling t : Nat) (msg : String)
    (h : t ≤ ceiling) :
    awaitOneshot ceiling msg (.senderDropped t)
      = (.error (dink_err "agent response channel dropped"), t)
    ∧ "cancel_all" ∉ dinkChannelOps :=
  ⟨by simp [awaitOneshot, h], by decide⟩

/-- Witness for the amended C7: a sender dropped 5 units into a 30-unit wait
wakes the caller at time 5 with the closed-channel failure. -/
theorem dink_teardown_wakes_callers_witness :
    (5 : Nat) ≤ 30
    ∧ awaitOneshot 30 "agent response timed out after 30s" (.senderDropped 5)
      = (.error (dink_err "agent response channel dropped"), 5) :=
  ⟨by decide,
   (dink_teardown_wakes_callers 30 5 "agent response timed out after 30s" (by decide)).1⟩

-- ===========================================================================
-- C3: streaming order and terminal timeout
-- ===========================================================================

theorem streamForward_all_ok {α : Type} (ser : α → Except String (List Nat))
    (emit : List Nat → Except DinkError Unit) :
    ∀ deltas : List α,
      (∀ d ∈ deltas, ∃ bytes, ser d = .ok bytes ∧ emit bytes = .ok ()) →
      (streamForward ser emit deltas).2 = none
      ∧ List.Forall₂ (fun d b => ser d = .ok b) deltas (streamForward ser emit deltas).1 := by
  intro deltas
  induction deltas with
  | nil => intro _; exact ⟨rfl, List.Forall₂.nil⟩
  | cons d rest ih =>
    intro h
    obtain ⟨bytes, hser, hemit⟩ := h d (List.mem_cons_self d rest)
    have ihr := ih (fun x hx => h x (List.mem_cons_of_mem d hx))
    constructor
    · simp [streamForward, hser, hemit, ihr.1]
    · simp only [streamForward, hser, hemit]
      exact List.Forall₂.cons hser ihr.2

/-- C3. With a live Processor link, a streaming call forwards every chunk
read from the relay to the caller's emit sink in producer order until the
relay closes (the emitted byte sequences correspond one-to-one, in order, to
the chunks); only after the relay has closed is the terminal result awaited,
under the 120-unit ceiling, and if the Processor does not resolve within
that ceiling the caller receives the Timeout failure
("stream response timed out") after waiting exactly the ceiling. -/
theorem stream_order_and_terminal_timeout {α : Type} (s : EdgeState)
    (ser : α → Except String (List Nat)) (emit : List Nat → Except DinkError Unit)
    (deltas : List α) (fate : OneshotFate)
    (hs : s.agent_sender = true)
    (hok : ∀ d ∈ deltas, ∃ bytes, ser d = .ok bytes ∧ emit bytes = .ok ())
    (hf : resolvesWithin fate STREAM_TIMEOUT_SECS = false) :
    List.Forall₂ (fun d b => ser d = .ok b) deltas
      ((stream_message s ser emit true deltas fate).2).emitted
    ∧ ((stream_message s ser emit true deltas fate).2).result
      = .error (dink_err "stream response timed out")
    ∧ ((stream_message s ser emit true deltas fate).2).waitedAfterClose
      = STREAM_TIMEOUT_SECS := by
  have hfwd := streamForward_all_ok ser emit deltas hok
  have hawait : awaitOneshot STREAM_TIMEOUT_SECS "stream response timed out" fate
      = (.error (dink_err "stream response timed out"), STREAM_TIMEOUT_SECS) := by
    cases fate with
    | resolve t r =>
      have ht : ¬ t ≤ STREAM_TIMEOUT_SECS := by simpa [resolvesWithin] using hf
      simp [awaitOneshot, ht]
    | senderDropped t =>
      have ht : ¬ t ≤ STREAM_TIMEOUT_SECS := by simpa [resolvesWithin] using hf
      simp [awaitOneshot, ht]
    | never => rfl
  have hsm : stream_message s ser emit true deltas fate
      = (s, { emitted := (streamForward ser emit deltas).1,
              result := .error (dink_err "stream response timed out"),
              waitedAfterClose := STREAM_TIMEOUT_SECS }) := by
    simp [stream_message, hs, hfwd.1, hawait]
  rw [hsm]
  exact ⟨hfwd.2, rfl, rfl⟩

/-- Witness for C3: two chunks against a never-resolving terminal slot are
both emitted in order, then the call times out after 120 units. -/
theorem stream_order_and_terminal_timeout_witness :
    ({ agent_sender := true, statusText := "running",
       messages_handled := 0, tool_calls_total := 0 } : EdgeState).agent_sender = true
    ∧ resolvesWithin .never STREAM_TIMEOUT_SECS = false
    ∧ List.Forall₂ (fun d b => serW d = .ok b) [1, 2]
        ((stream_message
          { agent_sender := true, statusText := "running",
            messages_handled := 0, tool_calls_total := 0 }
          serW emitW true [1, 2] .never).2).emitted
    ∧ ((stream_message
          { agent_sender := true, statusText := "running",
            messages_handled := 0, tool_calls_total := 0 }
          serW emitW true [1, 2] .never).2).result
      = .error (dink_err "stream response timed out") :=
  ⟨rfl, rfl,
   (stream_order_and_terminal_timeout
     { agent_sender := true, statusText := "running",
       messages_handled := 0, tool_calls_total := 0 }
     serW emitW [1, 2] .never rfl (fun d _ => ⟨[d], rfl, rfl⟩) rfl).1,
   (stream_order_and_terminal_timeout
     { agent_sender := true, statusText := "running",
       messages_handled := 0, tool_calls_total := 0 }
     serW emitW [1, 2] .never rfl (fun d _ => ⟨[d], rfl, rfl⟩) rfl).2.1⟩

-- ===========================================================================
-- C10: recall limit defaulting and missing backend
-- ===========================================================================

/-- C10. A RecallMemory call whose requested limit is zero or negative is
performed with the default limit 10 (it behaves exactly as the same request
with limit 10); and with no memory backend attached the call returns success
with an empty entry list and zero total matches, never an error. -/
theorem recall_memory_default_limit_and_no_backend {μ : Type} :
    (∀ (mem : String → Nat → Option (List μ)) (req : RecallMemoryRequest),
      req.limit ≤ 0 →
      recall_memory (some mem) req
        = recall_memory (some mem) { query := req.query, limit := 10 })
    ∧ (∀ req : RecallMemoryRequest,
      recall_memory (none : Option (String → Nat → Option (List μ))) req
        = .ok { entries := [], total_matches := 0 }) := by
  constructor
  · intro mem req h
    have h1 : ¬ req.limit > 0 := by omega
    have h2 : Int.toNat 10 = 10 := rfl
    norm_num [recall_memory, effectiveLimit, h1, h2]
  · intro req
    rfl

/-- Witness for C10: a request with limit -3 recalls exactly as the same
request with limit 10, and the backendless call answers empty success. -/
theorem recall_memory_default_limit_witness :
    ({ query := "q", limit := -3 } : RecallMemoryRequest).limit ≤ 0
    ∧ recall_memory (some memW) { query := "q", limit := -3 }
      = recall_memory (some memW) { query := "q", limit := 10 }
    ∧ recall_memory (none : Option (String → Nat → Option (List Nat)))
        { query := "q", limit := 7 }
      = .ok { entries := [], total_matches := 0 } :=
  ⟨by decide,
   (@recall_memory_default_limit_and_no_backend Nat).1 memW
     { query := "q", limit := -3 } (by decide),
   (@recall_memory_default_limit_and_no_backend Nat).2 { query := "q", limit := 7 }⟩

-- ===========================================================================
-- C4: watchdog grace-period semantics
-- ===========================================================================

theorem findDead_spec (alive : Nat → Bool) :
    ∀ fuel now t, findDead alive fuel now = some t → now ≤ t ∧ alive t = false := by
  intro fuel
  induction fuel with
  | zero => intro now t h; simp [findDead] at h
  | succ n ih =>
    intro now t h
    cases hb : alive now
    · simp [findDead, hb] at h
      exact h ▸ ⟨Nat.le_refl now, hb⟩
    · simp [findDead, hb] at h
      obtain ⟨h1, h2⟩ := ih (now + 1) t h
      exact ⟨by omega, h2⟩

theorem watchdogRun_some_spec (alive : Nat → Bool) (G : Nat) :
    ∀ fuel now T, watchdogRun alive G fuel now = some T →
      ∃ t, now ≤ t ∧ alive t = false ∧ T = t + G ∧ alive (t + G) = false := by
  intro fuel
  induction fuel with
  | zero => intro now T h; simp [watchdogRun] at h
  | succ n ih =>
    intro now T h
    cases hfd : findDead alive (n + 1) now with
    | none => simp [watchdogRun, hfd] at h
    | some t =>
      obtain ⟨hnt, hdead⟩ := findDead_spec alive (n + 1) now t hfd
      cases hg : alive (t + G)
      · simp [watchdogRun, hfd, hg] at h
        exact ⟨t, hnt, hdead, h.symm, hg⟩
      · simp [watchdogRun, hfd, hg] at h
        obtain ⟨t', h1, h2, h3, h4⟩ := ih (t + G) T h
        exact ⟨t', by omega, h2, h3, h4⟩

theorem watchdogRun_none_of_recovered (alive : Nat → Bool) (G : Nat) (s : Nat)
    (hA : ∀ u, s ≤ u → alive u = true)
    (hG : ∀ t, alive t = false → s ≤ t + G) :
    ∀ fuel now, watchdogRun alive G fuel now = none := by
  intro fuel
  induction fuel with
  | zero => intro now; rfl
  | succ n ih =>
    intro now
    cases hfd : findDead alive (n + 1) now with
    | none => simp [watchdogRun, hfd]
    | some t =>
      obtain ⟨hnt, hdead⟩ := findDead_spec alive (n + 1) now t hfd
      have halive : alive (t + G) = true := hA (t + G) (hG t hdead)
      simp [watchdogRun, hfd, halive, ih (t + G)]

/-- C4. The watchdog triggers its terminal action (process exit, or the
`true` return in test mode) only at a time of the form `t + G`, where `t` is
a time at which it observed the Dead state (so never earlier than one grace
period after that observation) and where liveness is still Dead at the
single post-sleep re-check `t + G`; and whenever liveness is Alive from some
point `s` on, with every Dead instant at least a grace period before `s`
(e.g. marked Alive at `G/5` after going Dead and never marked Dead again),
the watchdog never triggers, for any amount of fuel (total elapsed time). -/
theorem watchdog_grace_period_semantics (alive : Nat → Bool) (G : Nat) :
    (∀ fuel now T, watchdogRun alive G fuel now = some T →
      ∃ t, now ≤ t ∧ alive t = false ∧ T = t + G ∧ alive (t + G) = false)
    ∧ (∀ s : Nat, (∀ u, s ≤ u → alive u = true) →
      (∀ t, alive t = false → s ≤ t + G) →
      ∀ fuel now, watchdogRun alive G fuel now = none) :=
  ⟨watchdogRun_some_spec alive G,
   fun s hA hG => watchdogRun_none_of_recovered alive G s hA hG⟩

/-- Witness for C4: with grace period 5, a timeline dead only at instant 0
(alive from instant 1 = G/5 on) never triggers; a timeline
that stays dead triggers at exactly 0 + 5, still dead at the re-check. -/
theorem watchdog_grace_period_semantics_witness :
    (∀ u, 1 ≤ u → aliveAfterOne u = true)
    ∧ watchdogRun aliveAfterOne 5 4 0 = none
    ∧ watchdogRun alwaysDead 5 1 0 = some 5
    ∧ (∃ t, 0 ≤ t ∧ alwaysDead t = false ∧ 5 = t + 5 ∧ alwaysDead (t + 5) = false) := by
  have hA : ∀ u, 1 ≤ u → aliveAfterOne u = true := by
    intro u hu
    simp only [aliveAfterOne, bne_iff_ne, ne_eq]
    omega
  refine ⟨hA, ?_, by decide, ?_⟩
  · exact (watchdog_grace_period_semantics aliveAfterOne 5).2 1 hA (fun t _ => by omega) 4 0
  · exact (watchdog_grace_period_semantics alwaysDead 5).1 1 0 5 (by decide)

-- ===========================================================================
-- C8: tool-name derivation
-- ===========================================================================

/-- C8. The derived local tool name is the fixed prefix "dink_" followed by
the snake_case of the service name with a trailing "Service" suffix
stripped, an underscore, and the snake_case of the method name; the
derivation is a function of the two names (deterministic), and for names
with consecutive uppercase letters each uppercase letter becomes its own
underscore-separated segment: "HTMLParser" yields "h_t_m_l_parser". -/
theorem tool_name_derivation_spec (service_name method_name : String) :
    derive_tool_name service_name method_name
      = "dink_" ++ to_snake_case (stripServiceSuffix service_name) ++ "_"
        ++ to_snake_case method_name
    ∧ to_snake_case "HTMLParser" = "h_t_m_l_parser"
    ∧ to_snake_case "AgentTools" = "agent_tools"
    ∧ to_snake_case "ExecCommand" = "exec_command"
    ∧ stripServiceSuffix "AgentToolsService" = "AgentTools"
    ∧ derive_tool_name "AgentToolsService" "ExecCommand" = "dink_agent_tools_exec_command"
    ∧ derive_tool_name "HTMLParserService" "Parse" = "dink_h_t_m_l_parser_parse" :=
  ⟨rfl, by decide, by decide, by decide, by decide, by decide, by decide⟩

-- ===========================================================================
-- C9: output truncation at the byte ceiling
-- ===========================================================================

theorem utf8Len_cons (c : Char) (cs : List Char) :
    utf8Len (c :: cs) = c.utf8Size + utf8Len cs := by
  simp [utf8Len]

theorem takeBytes_append_original (n : Nat) (l : List Char) :
    ∃ rest, l = takeBytes n l ++ rest := by
  induction l generalizing n with
  | nil => exact ⟨[], rfl⟩
  | cons c cs ih =>
    by_cases h : c.utf8Size ≤ n
    · obtain ⟨rest, hrest⟩ := ih (n - c.utf8Size)
      refine ⟨rest, ?_⟩
      simp only [takeBytes, if_pos h, List.cons_append]
      exact congrArg (c :: ·) hrest
    · exact ⟨c :: cs, by simp [takeBytes, h]⟩

theorem utf8Len_takeBytes_le (n : Nat) (l : List Char) :
    utf8Len (takeBytes n l) ≤ n := by
  induction l generalizing n with
  | nil => simp [takeBytes, utf8Len]
  | cons c cs ih =>
    by_cases h : c.utf8Size ≤ n
    · simp only [takeBytes, if_pos h, utf8Len_cons]
      have := ih (n - c.utf8Size)
      omega
    · simp [takeBytes, h, utf8Len]

/-- C9. A decoded reply whose UTF-8 byte length exceeds the 50 * 1024-byte
ceiling is returned by the capability proxy truncated at a valid character
boundary at or before the ceiling (a prefix of the output of at most
`MAX_OUTPUT_BYTES` bytes) with the marker "\n... [truncated]" appended;
any output at or below the ceiling is returned unchanged. -/
theorem execute_truncation_spec (out : List Char) :
    (utf8Len out ≤ MAX_OUTPUT_BYTES →
      execute_decoded out = { success := true, output := out, error := none })
    ∧ (utf8Len out > MAX_OUTPUT_BYTES →
      ∃ p rest, out = p ++ rest ∧ utf8Len p ≤ MAX_OUTPUT_BYTES
        ∧ execute_decoded out
          = { success := true, output := p ++ TRUNCATION_MARKER, error := none }) := by
  constructor
  · intro h
    have hn : ¬ utf8Len out > MAX_OUTPUT_BYTES := by omega
    simp [execute_decoded, truncate_output, hn]
  · intro h
    obtain ⟨rest, hrest⟩ := takeBytes_append_original MAX_OUTPUT_BYTES out
    exact ⟨takeBytes MAX_OUTPUT_BYTES out, rest, hrest,
      utf8Len_takeBytes_le MAX_OUTPUT_BYTES out,
      by simp [execute_decoded, truncate_output, h]⟩

theorem utf8Len_replicate_a (n : Nat) : utf8Len (List.replicate n 'a') = n := by
  induction n with
  | zero => rfl
  | succ k ih =>
    have h1 : Char.utf8Size 'a' = 1 := rfl
    simp [List.replicate_succ, utf8Len_cons, ih, h1]
    omega

/-- Witness for C9: 51201 bytes of 'a' exceed the 51200-byte ceiling and are
truncated to a bounded prefix plus the marker; the two-byte output "ok" is
at most the ceiling and passes through unchanged. -/
theorem execute_truncation_spec_witness :
    utf8Len (List.replicate 51201 'a') > MAX_OUTPUT_BYTES
    ∧ (∃ p rest, List.replicate 51201 'a' = p ++ rest
        ∧ utf8Len p ≤ MAX_OUTPUT_BYTES
        ∧ execute_decoded (List.replicate 51201 'a')
          = { success := true, output := p ++ TRUNCATION_MARKER, error := none })
    ∧ utf8Len "ok".data ≤ MAX_OUTPUT_BYTES
    ∧ execute_decoded "ok".data
      = { success := true, output := "ok".data, error := none } := by
  have hbig : utf8Len (List.replicate 51201 'a') > MAX_OUTPUT_BYTES := by
    rw [utf8Len_replicate_a]
    norm_num [MAX_OUTPUT_BYTES]
  have hsmall : utf8Len "ok".data ≤ MAX_OUTPUT_BYTES := by decide
  exact ⟨hbig, (execute_truncation_spec (List.replicate 51201 'a')).2 hbig,
    hsmall, (execute_truncation_spec "ok".data).1 hsmall⟩
